import Mathlib

/-!
Verification of the slinky websocket query handler core and the ABCI
vote-extension handler, against the repository specification.

The query handler (run state machine) is modelled from the specification,
since only its test file is present in the sources; the vote-extension
handler is embedded from `abci/ve/vote_extension.go`.
-/

set_option autoImplicit false

namespace Slinky

/-- Tag identifying the lifecycle phase of a failure (spec section 3:
Dial, BuildSubscription, Write, Read, Parse, Close). -/
inductive ErrorKind where
  | dial
  | buildSubscription
  | write
  | read
  | parse
  | close
deriving DecidableEq, Repr

/-- A result batch: resolved entries carry a value, unresolved entries
carry an `ErrorKind` (spec section 3).  Mappings are association lists. -/
structure ResultBatch (K V : Type) where
  resolved : List (K × V)
  unresolved : List (K × ErrorKind)
deriving DecidableEq, Repr

/-- A batch is empty when both maps are empty. -/
def ResultBatch.isEmpty {K V : Type} (b : ResultBatch K V) : Bool :=
  b.resolved.isEmpty && b.unresolved.isEmpty

/-- Within one batch, no key appears in both the resolved and the
unresolved map (spec section 3 invariant). -/
def ResultBatch.keyDisjoint {K V : Type} [DecidableEq K] (b : ResultBatch K V) : Bool :=
  b.resolved.all (fun p => b.unresolved.all (fun q => decide (q.1 ≠ p.1)))

/-- The batch assigning one error kind to every requested key, with no
resolved entries: the shape of handshake-failure batches. -/
def allUnresolved {K V : Type} (keys : List K) (e : ErrorKind) : ResultBatch K V :=
  ⟨[], keys.map (fun k => (k, e))⟩

/-- Outcome of the protocol capability's parse operation (spec section 4.3):
an error, or a batch together with an optional reply payload. -/
inductive ParseOutcome (K V Msg : Type) where
  | failure
  | success (batch : ResultBatch K V) (reply : Option Msg)

/-- One outcome the orchestrating task waits on in the streaming phase
(spec sections 4.1 and 5): context cancellation, a reader error, or an
inbound frame from the reader task. -/
inductive SessionEvent (Frame : Type) where
  | cancel
  | readError
  | frame (f : Frame)
deriving DecidableEq, Repr

/-- Observable action of one run: transport calls, consumed read
outcomes, and batches emitted to the sink.  `write` and `close` record
the success of the call, `dial` records the dial outcome. -/
inductive Action (K V Frame Msg : Type) where
  | dial (ok : Bool)
  | write (m : Msg) (ok : Bool)
  | close (ok : Bool)
  | readOutcome (e : SessionEvent Frame)
  | emit (b : ResultBatch K V)
deriving DecidableEq, Repr

/-- The environment of one run: the transport capability's behaviour
(dial outcome, success of each write by call index, close outcome), the
protocol capability (build subscription, parse), and the stream of
outcomes the reader task and the context deliver. -/
structure Env (K V Frame Msg : Type) where
  dialOk : Bool
  createMessage : List K → Option Msg
  writeOk : Nat → Bool
  parse : Frame → ParseOutcome K V Msg
  closeOk : Bool
  events : List (SessionEvent Frame)

/-- Modelled from the spec: the streaming-phase loop of
`WebSocketQueryHandler.Start` (file `providers/base/websocket/handlers/ws_query_handler.go`,
absent from the sources; only its test is present).  Per spec section 4.1:
on cancellation or a reader error, close and terminate with no batch; on a
frame, parse it; a parse error drops the frame and continues; otherwise a
non-empty batch is sent to the sink, then an optional reply payload is
written before the next read outcome is consumed, a write failure being
connection-fatal (close, terminate, no further batches).  `w` counts the
transport writes already made. -/
def runLoop {K V Frame Msg : Type} (env : Env K V Frame Msg) :
    List (SessionEvent Frame) → Nat → List (Action K V Frame Msg)
  | [], _ => [Action.close env.closeOk]
  | e :: rest, w =>
    Action.readOutcome e ::
    match e with
    | SessionEvent.cancel => [Action.close env.closeOk]
    | SessionEvent.readError => [Action.close env.closeOk]
    | SessionEvent.frame f =>
      match env.parse f with
      | ParseOutcome.failure => runLoop env rest w
      | ParseOutcome.success batch reply =>
        (if batch.isEmpty then [] else [Action.emit batch]) ++
        match reply with
        | none => runLoop env rest w
        | some m =>
          if env.writeOk w then
            Action.write m true :: runLoop env rest (w + 1)
          else
            [Action.write m false, Action.close env.closeOk]

/-- Modelled from the spec: `WebSocketQueryHandler.Start` (the run entry
point of `ws_query_handler.go`, absent from the sources).  Handshake per
spec section 4.1: dial (on failure, one batch with every key unresolved
under Dial, no further transport calls); build the subscription (on
failure, one batch under BuildSubscription; the reference behaviour does
not close on this path, spec section 9); write it (on failure, one batch
under Write, then close); then the streaming loop. -/
def run {K V Frame Msg : Type} (env : Env K V Frame Msg) (keys : List K) :
    List (Action K V Frame Msg) :=
  if env.dialOk then
    match env.createMessage keys with
    | none =>
      [Action.dial true, Action.emit (allUnresolved keys ErrorKind.buildSubscription)]
    | some m =>
      if env.writeOk 0 then
        Action.dial true :: Action.write m true :: runLoop env env.events 1
      else
        [Action.dial true, Action.write m false,
         Action.emit (allUnresolved keys ErrorKind.write), Action.close env.closeOk]
  else
    [Action.dial false, Action.emit (allUnresolved keys ErrorKind.dial)]

/-- The batches a trace delivers to the sink, in order. -/
def emits {K V Frame Msg : Type} : List (Action K V Frame Msg) → List (ResultBatch K V)
  | [] => []
  | Action.emit b :: rest => b :: emits rest
  | _ :: rest => emits rest

/-- Number of `close` calls in a trace. -/
def closeCount {K V Frame Msg : Type} : List (Action K V Frame Msg) → Nat
  | [] => 0
  | Action.close _ :: rest => closeCount rest + 1
  | _ :: rest => closeCount rest

/-- Number of `write` calls in a trace. -/
def writeCount {K V Frame Msg : Type} : List (Action K V Frame Msg) → Nat
  | [] => 0
  | Action.write _ _ :: rest => writeCount rest + 1
  | _ :: rest => writeCount rest

/-- Number of read outcomes consumed in a trace. -/
def readCount {K V Frame Msg : Type} : List (Action K V Frame Msg) → Nat
  | [] => 0
  | Action.readOutcome _ :: rest => readCount rest + 1
  | _ :: rest => readCount rest

/-- The suffix of a trace after the first consumed reader error
(empty when no reader error is consumed). -/
def afterReadError {K V Frame Msg : Type} :
    List (Action K V Frame Msg) → List (Action K V Frame Msg)
  | [] => []
  | Action.readOutcome SessionEvent.readError :: rest => rest
  | _ :: rest => afterReadError rest

/-- The suffix of a trace after the first failed write
(empty when no write fails). -/
def afterFailedWrite {K V Frame Msg : Type} :
    List (Action K V Frame Msg) → List (Action K V Frame Msg)
  | [] => []
  | Action.write _ false :: rest => rest
  | _ :: rest => afterFailedWrite rest

/-- The prefix of a trace before the next consumed read outcome. -/
def untilNextRead {K V Frame Msg : Type} :
    List (Action K V Frame Msg) → List (Action K V Frame Msg)
  | [] => []
  | Action.readOutcome _ :: _ => []
  | a :: rest => a :: untilNextRead rest

/-- The batches produced by the successive successful parse calls the
streaming loop makes, in consumption order (empty batches included). -/
def parsedDuring {K V Frame Msg : Type} (env : Env K V Frame Msg) :
    List (SessionEvent Frame) → Nat → List (ResultBatch K V)
  | [], _ => []
  | SessionEvent.cancel :: _, _ => []
  | SessionEvent.readError :: _, _ => []
  | SessionEvent.frame f :: rest, w =>
    match env.parse f with
    | ParseOutcome.failure => parsedDuring env rest w
    | ParseOutcome.success b none => b :: parsedDuring env rest w
    | ParseOutcome.success b (some _) =>
      b :: (if env.writeOk w then parsedDuring env rest (w + 1) else [])

/-- Erase the recorded outcome of `close` calls from an action, keeping
everything else: two runs equal under this erasure behave identically
except for the ignored close result. -/
def eraseCloseFlag {K V Frame Msg : Type} : Action K V Frame Msg → Action K V Frame Msg
  | Action.close _ => Action.close true
  | a => a

/-- Concrete environment: dial fails. -/
def envDialFail : Env Nat Nat Nat Nat :=
  { dialOk := false, createMessage := fun _ => some 7, writeOk := fun _ => true,
    parse := fun _ => ParseOutcome.failure, closeOk := true, events := [] }

/-- Concrete environment: dial succeeds, building the subscription fails. -/
def envCreateFail : Env Nat Nat Nat Nat :=
  { dialOk := true, createMessage := fun _ => none, writeOk := fun _ => true,
    parse := fun _ => ParseOutcome.failure, closeOk := true, events := [] }

/-- Concrete environment: the handshake write fails. -/
def envWriteFail : Env Nat Nat Nat Nat :=
  { dialOk := true, createMessage := fun _ => some 7, writeOk := fun _ => false,
    parse := fun _ => ParseOutcome.failure, closeOk := true, events := [] }

/-- Concrete environment: handshake succeeds, then a read error. -/
def envReadErr : Env Nat Nat Nat Nat :=
  { dialOk := true, createMessage := fun _ => some 7, writeOk := fun _ => true,
    parse := fun _ => ParseOutcome.failure, closeOk := true,
    events := [SessionEvent.readError] }

/-- Concrete environment: every frame parses to a heartbeat reply with an
empty batch; every write succeeds. -/
def envReply : Env Nat Nat Nat Nat :=
  { dialOk := true, createMessage := fun _ => some 7, writeOk := fun _ => true,
    parse := fun _ => ParseOutcome.success ⟨[], []⟩ (some 9), closeOk := true,
    events := [SessionEvent.frame 0, SessionEvent.cancel] }

/-- Concrete environment: every frame parses to a heartbeat reply with an
empty batch; the handshake write succeeds and every later write fails. -/
def envReplyWriteFail : Env Nat Nat Nat Nat :=
  { dialOk := true, createMessage := fun _ => some 7, writeOk := fun w => w == 0,
    parse := fun _ => ParseOutcome.success ⟨[], []⟩ (some 9), closeOk := true,
    events := [SessionEvent.frame 0] }

/-- Concrete environment: every frame resolves key 1 to value 100; the
close call fails. -/
def envCloseFail : Env Nat Nat Nat Nat :=
  { dialOk := true, createMessage := fun _ => some 7, writeOk := fun _ => true,
    parse := fun _ => ParseOutcome.success ⟨[(1, 100)], []⟩ none, closeOk := false,
    events := [SessionEvent.frame 0, SessionEvent.cancel] }

/-! ### Vote-extension handler (`abci/ve/vote_extension.go`) -/

/-- The oracle client's prices response (`service.QueryPricesResponse`):
the prices map and the timestamp, kept abstract. -/
structure QueryPricesResponse (P T : Type) where
  prices : P
  timestamp : T

/-- The vote extension built from a prices response
(`abcitypes.OracleVoteExtension`). -/
structure OracleVoteExtension (P T : Type) where
  height : Int
  prices : P
  timestamp : T

/-- Outcome of the `oracleClient.Prices` call as seen by
`ExtendVoteHandler`: a panic somewhere in the request, a non-nil error, a
nil response with a nil error, or a response. -/
inductive OracleCall (P T : Type) where
  | panics
  | fails
  | returnsNil
  | returns (resp : QueryPricesResponse P T)

/-- `cometabci.ResponseExtendVote`: the vote-extension byte slice. -/
structure ResponseExtendVote where
  voteExtension : List Nat

/-- The handler returned by `VoteExtensionHandler.ExtendVoteHandler`
(`abci/ve/vote_extension.go` lines 44-114).  `marshal` stands for
`OracleVoteExtension.Marshal`, which may fail.  A recovered panic, a
client error, a nil response, and a marshal failure each produce the
empty vote extension with a nil error; otherwise the marshalled bytes are
returned with a nil error. -/
def extendVoteHandler {P T : Type} (marshal : OracleVoteExtension P T → Option (List Nat))
    (call : OracleCall P T) (height : Int) : ResponseExtendVote × Option String :=
  match call with
  | OracleCall.panics => (⟨[]⟩, none)
  | OracleCall.fails => (⟨[]⟩, none)
  | OracleCall.returnsNil => (⟨[]⟩, none)
  | OracleCall.returns resp =>
    match marshal ⟨height, resp.prices, resp.timestamp⟩ with
    | none => (⟨[]⟩, none)
    | some bz => (⟨bz⟩, none)

/-! ### Helper lemmas about the run traces -/

/-- The streaming loop closes the transport exactly once, whichever way
it terminates. -/
theorem closeCount_runLoop {K V Frame Msg : Type} (env : Env K V Frame Msg)
    (evs : List (SessionEvent Frame)) (w : Nat) :
    closeCount (runLoop env evs w) = 1 := by
  induction evs generalizing w with
  | nil => simp [runLoop, closeCount]
  | cons e rest ih =>
    cases e with
    | cancel => simp [runLoop, closeCount]
    | readError => simp [runLoop, closeCount]
    | frame f =>
      simp only [runLoop]
      cases hp : env.parse f with
      | failure => simpa [closeCount] using ih w
      | success batch reply =>
        cases reply with
        | none =>
          by_cases hb : batch.isEmpty <;>
            simp [closeCount, hb, ih w]
        | some m =>
          by_cases hw : env.writeOk w <;>
            by_cases hb : batch.isEmpty <;>
              simp [closeCount, hb, hw, ih (w + 1)]

/-- `emits` distributes over concatenation. -/
theorem emits_append {K V Frame Msg : Type} (t₁ t₂ : List (Action K V Frame Msg)) :
    emits (t₁ ++ t₂) = emits t₁ ++ emits t₂ := by
  induction t₁ with
  | nil => rfl
  | cons a rest ih => cases a <;> simp [emits, ih]

/-- Every requested key is present in an all-unresolved batch, under the
given error kind. -/
theorem mem_allUnresolved {K V : Type} (keys : List K) (e : ErrorKind) (k : K)
    (hk : k ∈ keys) : (k, e) ∈ (allUnresolved (V := V) keys e).unresolved := by
  simp only [allUnresolved, List.mem_map]
  exact ⟨k, hk, rfl⟩

/-- An all-unresolved batch has disjoint key maps (its resolved map is
empty). -/
theorem keyDisjoint_allUnresolved {K V : Type} [DecidableEq K]
    (keys : List K) (e : ErrorKind) :
    (allUnresolved (V := V) keys e).keyDisjoint = true := rfl

/-- Once the streaming loop consumes a reader error, nothing is emitted
for the remainder of the trace. -/
theorem emits_afterReadError_runLoop {K V Frame Msg : Type} (env : Env K V Frame Msg)
    (evs : List (SessionEvent Frame)) (w : Nat) :
    emits (afterReadError (runLoop env evs w)) = [] := by
  induction evs generalizing w with
  | nil => simp [runLoop, afterReadError, emits]
  | cons e rest ih =>
    cases e with
    | cancel => simp [runLoop, afterReadError, emits]
    | readError => simp [runLoop, afterReadError, emits]
    | frame f =>
      simp only [runLoop]
      cases hp : env.parse f with
      | failure => simpa [afterReadError] using ih w
      | success batch reply =>
        cases reply with
        | none =>
          by_cases hb : batch.isEmpty <;>
            simp [afterReadError, hb, ih w]
        | some m =>
          by_cases hw : env.writeOk w <;>
            by_cases hb : batch.isEmpty <;>
              simp [afterReadError, emits, hb, hw, ih (w + 1)]

/-- The batches the streaming loop delivers are exactly the non-empty
batches of its successive parse calls, in order. -/
theorem emits_runLoop_eq_filter {K V Frame Msg : Type} (env : Env K V Frame Msg)
    (evs : List (SessionEvent Frame)) (w : Nat) :
    emits (runLoop env evs w)
      = (parsedDuring env evs w).filter (fun b => !b.isEmpty) := by
  induction evs generalizing w with
  | nil => simp [runLoop, parsedDuring, emits]
  | cons e rest ih =>
    cases e with
    | cancel => simp [runLoop, parsedDuring, emits]
    | readError => simp [runLoop, parsedDuring, emits]
    | frame f =>
      simp only [runLoop, parsedDuring]
      cases hp : env.parse f with
      | failure => simpa [emits] using ih w
      | success batch reply =>
        cases reply with
        | none =>
          by_cases hb : batch.isEmpty <;>
            simp [emits, List.filter_cons, hb, ih w]
        | some m =>
          by_cases hw : env.writeOk w <;>
            by_cases hb : batch.isEmpty <;>
              simp [emits, List.filter_cons, hb, hw, ih (w + 1)]

/-- If every successful parse result satisfies the key-disjointness
invariant, every batch of the streaming loop's parse calls does. -/
theorem keyDisjoint_parsedDuring {K V Frame Msg : Type} [DecidableEq K]
    (env : Env K V Frame Msg)
    (hparse : ∀ f b r, env.parse f = ParseOutcome.success b r → b.keyDisjoint = true)
    (evs : List (SessionEvent Frame)) (w : Nat) :
    ∀ b ∈ parsedDuring env evs w, b.keyDisjoint = true := by
  induction evs generalizing w with
  | nil => simp [parsedDuring]
  | cons e rest ih =>
    cases e with
    | cancel => simp [parsedDuring]
    | readError => simp [parsedDuring]
    | frame f =>
      simp only [parsedDuring]
      cases hp : env.parse f with
      | failure => exact ih w
      | success batch reply =>
        have hbd : batch.keyDisjoint = true := hparse f batch reply hp
        cases reply with
        | none =>
          intro b hb
          rcases List.mem_cons.mp hb with hb | hb
          · exact hb ▸ hbd
          · exact ih w b hb
        | some m =>
          intro b hb
          rcases List.mem_cons.mp hb with hb | hb
          · exact hb ▸ hbd
          · by_cases hw : env.writeOk w
            · rw [if_pos hw] at hb
              exact ih (w + 1) b hb
            · rw [if_neg hw] at hb
              simp at hb

/-- If every successful parse result satisfies the key-disjointness
invariant, so does every batch the streaming loop emits. -/
theorem keyDisjoint_runLoop {K V Frame Msg : Type} [DecidableEq K]
    (env : Env K V Frame Msg)
    (hparse : ∀ f b r, env.parse f = ParseOutcome.success b r → b.keyDisjoint = true)
    (evs : List (SessionEvent Frame)) (w : Nat) :
    ∀ b ∈ emits (runLoop env evs w), b.keyDisjoint = true := by
  rw [emits_runLoop_eq_filter]
  intro b hb
  exact keyDisjoint_parsedDuring env hparse evs w b (List.mem_filter.mp hb).1

/-- The streaming loop's trace does not depend on the close outcome,
except for the recorded close flag itself. -/
theorem map_eraseCloseFlag_runLoop {K V Frame Msg : Type} (env : Env K V Frame Msg)
    (evs : List (SessionEvent Frame)) (w : Nat) :
    (runLoop env evs w).map eraseCloseFlag
      = runLoop { env with closeOk := true } evs w := by
  induction evs generalizing w with
  | nil => simp [runLoop, eraseCloseFlag]
  | cons e rest ih =>
    cases e with
    | cancel => simp [runLoop, eraseCloseFlag]
    | readError => simp [runLoop, eraseCloseFlag]
    | frame f =>
      simp only [runLoop]
      cases hp : env.parse f with
      | failure => simpa [eraseCloseFlag] using ih w
      | success batch reply =>
        cases reply with
        | none =>
          by_cases hb : batch.isEmpty <;>
            simp [eraseCloseFlag, hb, ih w]
        | some m =>
          by_cases hw : env.writeOk w <;>
            by_cases hb : batch.isEmpty <;>
              simp [eraseCloseFlag, hb, hw, ih (w + 1)]

/-- `afterFailedWrite` skips a consumed read outcome. -/
theorem afterFailedWrite_cons_read {K V Frame Msg : Type}
    (e : SessionEvent Frame) (l : List (Action K V Frame Msg)) :
    afterFailedWrite (Action.readOutcome e :: l) = afterFailedWrite l := rfl

/-- `afterFailedWrite` skips an emitted batch. -/
theorem afterFailedWrite_cons_emit {K V Frame Msg : Type}
    (b : ResultBatch K V) (l : List (Action K V Frame Msg)) :
    afterFailedWrite (Action.emit b :: l) = afterFailedWrite l := rfl

/-- `afterFailedWrite` stops at a failed write. -/
theorem afterFailedWrite_cons_failed {K V Frame Msg : Type}
    (m : Msg) (l : List (Action K V Frame Msg)) :
    afterFailedWrite (Action.write m false :: l) = l := rfl

/-- Erasing close flags does not change the emitted batches. -/
theorem emits_map_eraseCloseFlag {K V Frame Msg : Type}
    (tr : List (Action K V Frame Msg)) :
    emits (tr.map eraseCloseFlag) = emits tr := by
  induction tr with
  | nil => rfl
  | cons a rest ih => cases a <;> simp [eraseCloseFlag, emits, ih]

/-! ### Claims -/

/-- Claim C2: for every non-empty requested key set, if dial fails, run
emits exactly one batch whose unresolved map assigns ErrorKind.Dial to
every requested key, no resolved entry is ever emitted in that run, and
no further transport operation (write, read, close) is invoked. -/
theorem run_dial_failure {K V Frame Msg : Type} (env : Env K V Frame Msg)
    (keys : List K) (hk : keys ≠ []) (hd : env.dialOk = false) :
    emits (run env keys) = [allUnresolved keys ErrorKind.dial]
    ∧ (∀ k ∈ keys,
        (k, ErrorKind.dial) ∈ (allUnresolved (V := V) keys ErrorKind.dial).unresolved)
    ∧ (∀ b ∈ emits (run env keys), b.resolved = [])
    ∧ writeCount (run env keys) = 0
    ∧ readCount (run env keys) = 0
    ∧ closeCount (run env keys) = 0 := by
  have hrun : run env keys
      = [Action.dial false, Action.emit (allUnresolved keys ErrorKind.dial)] := by
    simp [run, hd]
  refine ⟨by simp [hrun, emits], fun k hkm => mem_allUnresolved keys ErrorKind.dial k hkm,
    ?_, by simp [hrun, writeCount], by simp [hrun, readCount], by simp [hrun, closeCount]⟩
  intro b hb
  simp [hrun, emits] at hb
  simp [hb, allUnresolved]

/-- Witness for C2 at a concrete environment and key set. -/
theorem run_dial_failure_witness :
    ([1] : List Nat) ≠ []
    ∧ envDialFail.dialOk = false
    ∧ (emits (run envDialFail [1]) = [allUnresolved [1] ErrorKind.dial]
      ∧ (∀ k ∈ [1],
          (k, ErrorKind.dial) ∈ (allUnresolved (V := Nat) [1] ErrorKind.dial).unresolved)
      ∧ (∀ b ∈ emits (run envDialFail [1]), b.resolved = [])
      ∧ writeCount (run envDialFail [1]) = 0
      ∧ readCount (run envDialFail [1]) = 0
      ∧ closeCount (run envDialFail [1]) = 0) :=
  ⟨by decide, rfl, run_dial_failure envDialFail [1] (by decide) rfl⟩

/-- Claim C3: for every non-empty requested key set, if building the
subscription payload fails after a successful dial, run emits exactly one
batch assigning ErrorKind.BuildSubscription to every requested key, and
the transport's write is never invoked in that run. -/
theorem run_create_message_failure {K V Frame Msg : Type} (env : Env K V Frame Msg)
    (keys : List K) (hk : keys ≠ []) (hd : env.dialOk = true)
    (hc : env.createMessage keys = none) :
    emits (run env keys) = [allUnresolved keys ErrorKind.buildSubscription]
    ∧ (∀ k ∈ keys,
        (k, ErrorKind.buildSubscription)
          ∈ (allUnresolved (V := V) keys ErrorKind.buildSubscription).unresolved)
    ∧ writeCount (run env keys) = 0 := by
  have hrun : run env keys
      = [Action.dial true, Action.emit (allUnresolved keys ErrorKind.buildSubscription)] := by
    simp [run, hd, hc]
  exact ⟨by simp [hrun, emits],
    fun k hkm => mem_allUnresolved keys ErrorKind.buildSubscription k hkm,
    by simp [hrun, writeCount]⟩

/-- Witness for C3 at a concrete environment and key set. -/
theorem run_create_message_failure_witness :
    ([1] : List Nat) ≠ []
    ∧ envCreateFail.dialOk = true
    ∧ envCreateFail.createMessage [1] = none
    ∧ (emits (run envCreateFail [1]) = [allUnresolved [1] ErrorKind.buildSubscription]
      ∧ (∀ k ∈ [1],
          (k, ErrorKind.buildSubscription)
            ∈ (allUnresolved (V := Nat) [1] ErrorKind.buildSubscription).unresolved)
      ∧ writeCount (run envCreateFail [1]) = 0) :=
  ⟨by decide, rfl, rfl, run_create_message_failure envCreateFail [1] (by decide) rfl rfl⟩

/-- Claim C1: for every non-empty requested key set, if the handshake
write of the subscription payload fails, run emits exactly one batch in
which every requested key is unresolved under ErrorKind.Write, and the
transport's close is invoked exactly once before the run terminates. -/
theorem run_handshake_write_failure {K V Frame Msg : Type} (env : Env K V Frame Msg)
    (keys : List K) (m : Msg) (hk : keys ≠ []) (hd : env.dialOk = true)
    (hc : env.createMessage keys = some m) (hw : env.writeOk 0 = false) :
    emits (run env keys) = [allUnresolved keys ErrorKind.write]
    ∧ (∀ k ∈ keys,
        (k, ErrorKind.write) ∈ (allUnresolved (V := V) keys ErrorKind.write).unresolved)
    ∧ closeCount (run env keys) = 1 := by
  have hrun : run env keys
      = [Action.dial true, Action.write m false,
         Action.emit (allUnresolved keys ErrorKind.write), Action.close env.closeOk] := by
    simp [run, hd, hc, hw]
  exact ⟨by simp [hrun, emits],
    fun k hkm => mem_allUnresolved keys ErrorKind.write k hkm,
    by simp [hrun, closeCount]⟩

/-- Witness for C1 at a concrete environment and key set. -/
theorem run_handshake_write_failure_witness :
    ([1] : List Nat) ≠ []
    ∧ envWriteFail.dialOk = true
    ∧ envWriteFail.createMessage [1] = some 7
    ∧ envWriteFail.writeOk 0 = false
    ∧ (emits (run envWriteFail [1]) = [allUnresolved [1] ErrorKind.write]
      ∧ (∀ k ∈ [1],
          (k, ErrorKind.write) ∈ (allUnresolved (V := Nat) [1] ErrorKind.write).unresolved)
      ∧ closeCount (run envWriteFail [1]) = 1) :=
  ⟨by decide, rfl, rfl, rfl,
    run_handshake_write_failure envWriteFail [1] 7 (by decide) rfl rfl rfl⟩

/-- Claim C4: in every run where the handshake succeeded and a subsequent
read returns an error, no batch (neither resolved nor unresolved entries)
is emitted to the sink from that point to the end of the run, and close
is invoked exactly once. -/
theorem run_read_error_no_batch {K V Frame Msg : Type} (env : Env K V Frame Msg)
    (keys : List K) (m : Msg) (hd : env.dialOk = true)
    (hc : env.createMessage keys = some m) (hw : env.writeOk 0 = true)
    (hre : Action.readOutcome SessionEvent.readError ∈ run env keys) :
    emits (afterReadError (run env keys)) = []
    ∧ closeCount (run env keys) = 1 := by
  have hrun : run env keys
      = Action.dial true :: Action.write m true :: runLoop env env.events 1 := by
    simp [run, hd, hc, hw]
  constructor
  · rw [hrun]
    simpa [afterReadError] using emits_afterReadError_runLoop env env.events 1
  · rw [hrun]
    simpa [closeCount] using closeCount_runLoop env env.events 1

/-- Witness for C4 at a concrete environment whose sole event is a
reader error. -/
theorem run_read_error_no_batch_witness :
    envReadErr.dialOk = true
    ∧ envReadErr.createMessage [1] = some 7
    ∧ envReadErr.writeOk 0 = true
    ∧ Action.readOutcome SessionEvent.readError ∈ run envReadErr [1]
    ∧ (emits (afterReadError (run envReadErr [1])) = []
      ∧ closeCount (run envReadErr [1]) = 1) :=
  ⟨rfl, rfl, rfl, by decide,
    run_read_error_no_batch envReadErr [1] 7 rfl rfl rfl (by decide)⟩

/-- Claim C6: if parse returns an error for an inbound frame, no batch is
emitted to the sink for that frame, the session is not terminated, and
subsequent frames in the same run continue to be read and parsed: the
loop continues on the remaining events with unchanged state. -/
theorem runLoop_parse_error_recovers {K V Frame Msg : Type} (env : Env K V Frame Msg)
    (f : Frame) (rest : List (SessionEvent Frame)) (w : Nat)
    (hp : env.parse f = ParseOutcome.failure) :
    runLoop env (SessionEvent.frame f :: rest) w
      = Action.readOutcome (SessionEvent.frame f) :: runLoop env rest w
    ∧ emits (runLoop env (SessionEvent.frame f :: rest) w)
      = emits (runLoop env rest w) := by
  have h1 : runLoop env (SessionEvent.frame f :: rest) w
      = Action.readOutcome (SessionEvent.frame f) :: runLoop env rest w := by
    simp [runLoop, hp]
  exact ⟨h1, by rw [h1]; simp [emits]⟩

/-- Witness for C6 at a concrete environment whose parse fails. -/
theorem runLoop_parse_error_recovers_witness :
    envCreateFail.parse 0 = ParseOutcome.failure
    ∧ (runLoop envCreateFail [SessionEvent.frame 0] 1
        = Action.readOutcome (SessionEvent.frame 0) :: runLoop envCreateFail [] 1
      ∧ emits (runLoop envCreateFail [SessionEvent.frame 0] 1)
        = emits (runLoop envCreateFail [] 1)) :=
  ⟨rfl, runLoop_parse_error_recovers envCreateFail 0 [] 1 rfl⟩

/-- Claim C5: whenever parse returns a non-nil reply payload for a frame,
the orchestrating task invokes the transport's write with exactly those
reply bytes before the next read outcome is consumed; if that write
fails, the run terminates with no further batches emitted and close is
invoked exactly once. -/
theorem runLoop_reply_write {K V Frame Msg : Type} (env : Env K V Frame Msg)
    (f : Frame) (batch : ResultBatch K V) (m : Msg)
    (rest : List (SessionEvent Frame)) (w : Nat)
    (hp : env.parse f = ParseOutcome.success batch (some m)) :
    Action.write m (env.writeOk w)
      ∈ untilNextRead (List.tail (runLoop env (SessionEvent.frame f :: rest) w))
    ∧ (env.writeOk w = false →
        afterFailedWrite (runLoop env (SessionEvent.frame f :: rest) w)
          = [Action.close env.closeOk]
        ∧ emits (afterFailedWrite (runLoop env (SessionEvent.frame f :: rest) w)) = []
        ∧ closeCount (runLoop env (SessionEvent.frame f :: rest) w) = 1) := by
  have hrun : runLoop env (SessionEvent.frame f :: rest) w
      = Action.readOutcome (SessionEvent.frame f) ::
          ((if batch.isEmpty then [] else [Action.emit batch]) ++
            (if env.writeOk w then
              Action.write m true :: runLoop env rest (w + 1)
            else
              [Action.write m false, Action.close env.closeOk])) := by
    simp [runLoop, hp]
  constructor
  · by_cases hw : env.writeOk w = true <;>
      by_cases hb : batch.isEmpty = true <;>
        simp [hrun, hw, hb, untilNextRead]
  · intro hw
    have h0 : afterFailedWrite (runLoop env (SessionEvent.frame f :: rest) w)
        = afterFailedWrite
            ((if batch.isEmpty then [] else [Action.emit batch]) ++
              [Action.write m false, Action.close env.closeOk]) := by
      rw [hrun, afterFailedWrite_cons_read,
        if_neg (show ¬(env.writeOk w = true) from by simp [hw])]
    have hafw : afterFailedWrite (runLoop env (SessionEvent.frame f :: rest) w)
        = [Action.close env.closeOk] := by
      by_cases hb : batch.isEmpty = true
      · rw [h0, if_pos hb, List.nil_append, afterFailedWrite_cons_failed]
      · rw [h0, if_neg hb, List.singleton_append, afterFailedWrite_cons_emit,
          afterFailedWrite_cons_failed]
    exact ⟨hafw, by simp [hafw, emits], closeCount_runLoop env (SessionEvent.frame f :: rest) w⟩

/-- Witness for C5 at a concrete environment whose reply write fails. -/
theorem runLoop_reply_write_witness :
    envReplyWriteFail.parse 0
        = ParseOutcome.success ⟨[], []⟩ (some 9)
    ∧ (Action.write 9 (envReplyWriteFail.writeOk 1)
        ∈ untilNextRead (List.tail (runLoop envReplyWriteFail [SessionEvent.frame 0] 1))
      ∧ (envReplyWriteFail.writeOk 1 = false →
          afterFailedWrite (runLoop envReplyWriteFail [SessionEvent.frame 0] 1)
            = [Action.close envReplyWriteFail.closeOk]
          ∧ emits (afterFailedWrite (runLoop envReplyWriteFail [SessionEvent.frame 0] 1)) = []
          ∧ closeCount (runLoop envReplyWriteFail [SessionEvent.frame 0] 1) = 1)) :=
  ⟨rfl, runLoop_reply_write envReplyWriteFail 0 ⟨[], []⟩ 9 [] 1 rfl⟩

/-- Claim C7, counterexample to the unrestricted statement: in a
dial-failure run the sink receives the per-key Dial batch although no
parse call ever produced a batch, so the delivered sequence differs from
the (empty) subsequence of non-empty parse batches. -/
theorem run_emits_parsed_counterexample :
    ¬ (emits (run envDialFail [1])
        = (parsedDuring envDialFail envDialFail.events 1).filter (fun b => !b.isEmpty)) := by
  decide

/-- Claim C7: in every run that enters the streaming phase, the sequence
of batches delivered to the sink equals the subsequence of non-empty
batches produced by successive parse calls, in the same order: every
non-empty batch is sent, empty batches are not sent, and no reordering or
merging across frames occurs. -/
theorem run_emits_parsed_in_order {K V Frame Msg : Type} (env : Env K V Frame Msg)
    (keys : List K) (m : Msg) (hd : env.dialOk = true)
    (hc : env.createMessage keys = some m) (hw : env.writeOk 0 = true) :
    emits (run env keys)
      = (parsedDuring env env.events 1).filter (fun b => !b.isEmpty) := by
  have hrun : run env keys
      = Action.dial true :: Action.write m true :: runLoop env env.events 1 := by
    simp [run, hd, hc, hw]
  rw [hrun]
  simpa [emits] using emits_runLoop_eq_filter env env.events 1

/-- Witness for C7 at a concrete environment. -/
theorem run_emits_parsed_in_order_witness :
    envCloseFail.dialOk = true
    ∧ envCloseFail.createMessage [1] = some 7
    ∧ envCloseFail.writeOk 0 = true
    ∧ emits (run envCloseFail [1])
        = (parsedDuring envCloseFail envCloseFail.events 1).filter (fun b => !b.isEmpty) :=
  ⟨rfl, rfl, rfl, run_emits_parsed_in_order envCloseFail [1] 7 rfl rfl rfl⟩

/-- Claim C8: in every ResultBatch the core emits, each key appears in at
most one of the two maps: provided the protocol capability's parse
results satisfy the batch invariant of its contract, every emitted batch
does too (handshake-failure batches have no resolved entries at all). -/
theorem run_batches_keyDisjoint {K V Frame Msg : Type} [DecidableEq K]
    (env : Env K V Frame Msg) (keys : List K)
    (hparse : ∀ f b r, env.parse f = ParseOutcome.success b r → b.keyDisjoint = true) :
    ∀ b ∈ emits (run env keys), b.keyDisjoint = true := by
  intro b hb
  by_cases hd : env.dialOk = true
  · cases hc : env.createMessage keys with
    | none =>
      simp [run, hd, hc, emits] at hb
      simpa [hb] using keyDisjoint_allUnresolved (V := V) keys ErrorKind.buildSubscription
    | some m =>
      by_cases hw : env.writeOk 0 = true
      · have hrun : run env keys
            = Action.dial true :: Action.write m true :: runLoop env env.events 1 := by
          simp [run, hd, hc, hw]
        rw [hrun] at hb
        simp only [emits] at hb
        exact keyDisjoint_runLoop env hparse env.events 1 b hb
      · simp [run, hd, hc, hw, emits] at hb
        simpa [hb] using keyDisjoint_allUnresolved (V := V) keys ErrorKind.write
  · have hd' : env.dialOk = false := by
      revert hd
      cases env.dialOk <;> simp
    simp [run, hd', emits] at hb
    simpa [hb] using keyDisjoint_allUnresolved (V := V) keys ErrorKind.dial

/-- Witness for C8 at a concrete environment whose parse results satisfy
the batch invariant. -/
theorem run_batches_keyDisjoint_witness :
    (∀ f b r, envCloseFail.parse f = ParseOutcome.success b r → b.keyDisjoint = true)
    ∧ ∀ b ∈ emits (run envCloseFail [1]), b.keyDisjoint = true := by
  have hp : ∀ f b r,
      envCloseFail.parse f = ParseOutcome.success b r → b.keyDisjoint = true := by
    intro f b r h
    have he : envCloseFail.parse f
        = ParseOutcome.success (⟨[(1, 100)], []⟩ : ResultBatch Nat Nat) none := rfl
    rw [he] at h
    injection h with h1 h2
    subst h1
    decide
  exact ⟨hp, run_batches_keyDisjoint envCloseFail [1] hp⟩

/-- Claim C9: if the transport's close returns an error during teardown,
the error is never surfaced: the whole observable trace, the close call
included, is the same as with a successful close up to the recorded close
outcome, the emitted batches are identical, and close is invoked exactly
once. -/
theorem run_close_failure_invisible {K V Frame Msg : Type} (env : Env K V Frame Msg)
    (keys : List K) (m : Msg) (hd : env.dialOk = true)
    (hc : env.createMessage keys = some m) (hcl : env.closeOk = false) :
    (run env keys).map eraseCloseFlag = run { env with closeOk := true } keys
    ∧ emits (run env keys) = emits (run { env with closeOk := true } keys)
    ∧ closeCount (run env keys) = 1 := by
  have hmap : (run env keys).map eraseCloseFlag = run { env with closeOk := true } keys := by
    by_cases hw : env.writeOk 0 = true
    · have hrun : run env keys
          = Action.dial true :: Action.write m true :: runLoop env env.events 1 := by
        simp [run, hd, hc, hw]
      have hrun' : run { env with closeOk := true } keys
          = Action.dial true :: Action.write m true ::
            runLoop { env with closeOk := true } env.events 1 := by
        simp [run, hd, hc, hw]
      rw [hrun, hrun']
      simp [eraseCloseFlag, map_eraseCloseFlag_runLoop env env.events 1]
    · have hrun : run env keys
          = [Action.dial true, Action.write m false,
             Action.emit (allUnresolved keys ErrorKind.write), Action.close env.closeOk] := by
        simp [run, hd, hc, hw]
      have hrun' : run { env with closeOk := true } keys
          = [Action.dial true, Action.write m false,
             Action.emit (allUnresolved keys ErrorKind.write), Action.close true] := by
        simp [run, hd, hc, hw]
      rw [hrun, hrun']
      simp [eraseCloseFlag]
  refine ⟨hmap, by rw [← hmap, emits_map_eraseCloseFlag], ?_⟩
  by_cases hw : env.writeOk 0 = true
  · have hrun : run env keys
        = Action.dial true :: Action.write m true :: runLoop env env.events 1 := by
      simp [run, hd, hc, hw]
    rw [hrun]
    simpa [closeCount] using closeCount_runLoop env env.events 1
  · have hrun : run env keys
        = [Action.dial true, Action.write m false,
           Action.emit (allUnresolved keys ErrorKind.write), Action.close env.closeOk] := by
      simp [run, hd, hc, hw]
    simp [hrun, closeCount]

/-- Witness for C9 at a concrete environment whose close call fails. -/
theorem run_close_failure_invisible_witness :
    envCloseFail.dialOk = true
    ∧ envCloseFail.createMessage [1] = some 7
    ∧ envCloseFail.closeOk = false
    ∧ ((run envCloseFail [1]).map eraseCloseFlag
        = run { envCloseFail with closeOk := true } [1]
      ∧ emits (run envCloseFail [1]) = emits (run { envCloseFail with closeOk := true } [1])
      ∧ closeCount (run envCloseFail [1]) = 1) :=
  ⟨rfl, rfl, rfl, run_close_failure_invisible envCloseFail [1] 7 rfl rfl rfl⟩

/-- Claim C10: for every request, the handler returned by
ExtendVoteHandler returns a nil error; whenever the oracle client returns
an error, returns a nil response, the vote extension fails to marshal, or
a panic occurs, the response carries the empty vote extension rather than
propagating the failure. -/
theorem extendVoteHandler_liveness {P T : Type}
    (marshal : OracleVoteExtension P T → Option (List Nat)) (height : Int) :
    (∀ call, (extendVoteHandler marshal call height).2 = none)
    ∧ (extendVoteHandler marshal OracleCall.panics height).1.voteExtension = []
    ∧ (extendVoteHandler marshal OracleCall.fails height).1.voteExtension = []
    ∧ (extendVoteHandler marshal OracleCall.returnsNil height).1.voteExtension = []
    ∧ ∀ resp, (extendVoteHandler marshal (OracleCall.returns resp) height).1.voteExtension
        = (marshal ⟨height, resp.prices, resp.timestamp⟩).getD [] := by
  refine ⟨?_, rfl, rfl, rfl, ?_⟩
  · intro call
    cases call with
    | panics => rfl
    | fails => rfl
    | returnsNil => rfl
    | returns resp =>
      cases h : marshal ⟨height, resp.prices, resp.timestamp⟩ <;>
        simp [extendVoteHandler, h]
  · intro resp
    cases h : marshal ⟨height, resp.prices, resp.timestamp⟩ <;>
      simp [extendVoteHandler, h]

end Slinky
